import Mathlib

/-!
Verification of the `CircularBuffer` component of the EMDR-Project repository
(files `CircularBuffer.h` and `CircularBuffer.cpp`).

The buffer is a fixed-capacity ring of `DataPacket` records guarded by a
critical section.  All four state variables (`head`, `tail`, `count`, `ID`)
are mutated only inside that critical section, so each public operation is
an atomic state transition; the shallow embedding below models each C++
method as a pure function on an explicit state record.

Machine-integer notes.  `ID` is `uint32_t` and is incremented on every
write, so its wraparound at 2^32 is modelled with an explicit `% 4294967296`.
`head`, `tail`, `count` and `bufferSize` are `uint16_t`; under the buffer
invariant each of them always stays strictly below 2^16 (indices stay below
`bufferSize`, `count` stays at most `bufferSize`, and `bufferSize` itself is
a `uint16_t` constructor parameter), so the stores into those fields never
truncate and they are modelled as plain `Nat`.  The constructor parameter
`size` is `uint16_t`, modelled by an explicit `% 65536` at construction.
`value` is an `int16_t` that the buffer stores and returns without ever
computing on it; it is modelled as `Int`.  `timestamp` is a `uint32_t`
treated the same way, modelled as `Nat`.
-/

/-- The `DataPacket` struct of `CircularBuffer.h`: a record identifier,
a caller-supplied timestamp and a signed 16-bit sample value. -/
structure DataPacket where
  id : Nat
  timestamp : Nat
  value : Int
deriving DecidableEq, Inhabited

/-- The state of a `CircularBuffer` object: the backing array (modelled as a
list whose length is `bufferSize`), the capacity, the write index `head`,
the read index `tail`, the element count and the running packet id `ID`. -/
structure CircularBuffer where
  buffer : List DataPacket
  bufferSize : Nat
  head : Nat
  tail : Nat
  count : Nat
  ID : Nat
deriving DecidableEq

namespace CircularBuffer

/-- The constructor `CircularBuffer::CircularBuffer(uint16_t size)`.
It stores `size` into `bufferSize` unchecked (the `% 65536` models the
`uint16_t` parameter type) and allocates `bufferSize` packet slots with
`new DataPacket[bufferSize]`; the slots are default-initialized and never
observed before being written, modelled here as zero-filled.  `head`,
`tail`, `count` and `ID` start at 0 per their in-class initializers. -/
def init (size : Nat) : CircularBuffer :=
  { buffer := List.replicate (size % 65536) ⟨0, 0, 0⟩
    bufferSize := size % 65536
    head := 0
    tail := 0
    count := 0
    ID := 0 }

/-- The method `bool CircularBuffer::write(int16_t value, uint32_t time)`.
It stores `{ID, time, value}` at slot `head`, advances
`head = (head + 1) % bufferSize`, increments `ID` (a `uint32_t`, wrapping at
2^32), then either increments `count` (buffer not full, returns `false`) or
advances `tail = (tail + 1) % bufferSize` (buffer full, returns `true`).
Returns the overflow flag together with the updated state. -/
def write (b : CircularBuffer) (value : Int) (time : Nat) :
    Bool × CircularBuffer :=
  let buf := b.buffer.set b.head ⟨b.ID, time, value⟩
  let hd := (b.head + 1) % b.bufferSize
  let id := (b.ID + 1) % 4294967296
  if b.count < b.bufferSize then
    (false, { b with buffer := buf, head := hd, ID := id, count := b.count + 1 })
  else
    (true, { b with buffer := buf, head := hd, ID := id,
                    tail := (b.tail + 1) % b.bufferSize })

/-- The method `bool CircularBuffer::read(DataPacket* packet)`.
The argument `packet` holds the caller's output record before the call.
If `count > 0` the record at slot `tail` is copied into the output,
`tail` advances by one modulo `bufferSize`, `count` is decremented and the
result flag is `true`; otherwise nothing changes and the flag is `false`.
Returns the flag, the (possibly updated) output record and the new state. -/
def read (b : CircularBuffer) (packet : DataPacket) :
    Bool × DataPacket × CircularBuffer :=
  if 0 < b.count then
    (true, b.buffer.getD b.tail default,
      { b with tail := (b.tail + 1) % b.bufferSize, count := b.count - 1 })
  else
    (false, packet, b)

/-- The method `uint16_t CircularBuffer::available()`: it copies `count`
under the critical section and returns it, touching nothing else.  Modelled
as returning the value together with the (unchanged) state. -/
def available (b : CircularBuffer) : Nat × CircularBuffer :=
  (b.count, b)

/-- One externally invokable mutating operation of the buffer API. -/
inductive Op where
  | write (value : Int) (time : Nat)
  | read
deriving DecidableEq

/-- Apply one operation to a buffer state, discarding the returned values
(the `read` case passes an arbitrary caller record, here the default). -/
def step (b : CircularBuffer) : Op → CircularBuffer
  | Op.write v t => (b.write v t).2
  | Op.read => (b.read default).2.2

/-- Run a sequence of operations from a starting state. -/
def run (b : CircularBuffer) (ops : List Op) : CircularBuffer :=
  ops.foldl step b

/-- Perform a sequence of writes, each given as a (value, timestamp) pair. -/
def writeAll (b : CircularBuffer) (ws : List (Int × Nat)) : CircularBuffer :=
  ws.foldl (fun s w => (s.write w.1 w.2).2) b

/-- Drain the buffer by repeated `read`, collecting the returned records,
with an explicit fuel bound; draining stops at the first failed read. -/
def drain : Nat → CircularBuffer → List DataPacket
  | 0, _ => []
  | n + 1, b =>
    let r := b.read default
    if r.1 then r.2.1 :: drain n r.2.2 else []

/-- The state invariant of the buffer (spec section 3): indices in range,
`count` at most the capacity, the backing array exactly `bufferSize` slots,
`head` at distance `count` past `tail` modulo the capacity, and the machine
widths of `bufferSize` (`uint16_t`) and `ID` (`uint32_t`) respected. -/
def WF (b : CircularBuffer) : Prop :=
  0 < b.bufferSize ∧ b.bufferSize < 65536 ∧
  b.buffer.length = b.bufferSize ∧
  b.head < b.bufferSize ∧ b.tail < b.bufferSize ∧
  b.count ≤ b.bufferSize ∧
  b.head = (b.tail + b.count) % b.bufferSize ∧
  b.ID < 4294967296

instance : DecidablePred WF := fun b => by
  unfold WF; infer_instance

/-- The list of live records in FIFO order: `count` records starting at
slot `tail` and walking forward modulo the capacity. -/
def absList (b : CircularBuffer) : List DataPacket :=
  (List.range b.count).map fun i => b.buffer.getD ((b.tail + i) % b.bufferSize) default

/-- The records the spec expects a drain to return after a sequence of
writes `ws`: the written values and timestamps in order, with ids counting
up from `firstId`. -/
def expectedRecords : List (Int × Nat) → Nat → List DataPacket
  | [], _ => []
  | (v, t) :: rest, firstId => ⟨firstId, t, v⟩ :: expectedRecords rest (firstId + 1)

end CircularBuffer

namespace CircularBuffer

/-- A convenient nonempty concrete state: one record written into a
freshly constructed capacity-2 buffer. -/
def bufOne : CircularBuffer := ((init 2).write 5 6).2

/-- Reading from a buffer holding at least one record returns the record at
slot `tail`, and afterwards the live records are exactly the previous live
records with that front record removed. -/
theorem absList_read_cons (b : CircularBuffer) (p : DataPacket)
    (h : b.WF) (hc : 0 < b.count) :
    b.absList = (b.read p).2.1 :: ((b.read p).2.2).absList := by
  obtain ⟨h1, h2, h3, h4, h5, h6, h7, h8⟩ := h
  unfold read absList
  simp only [hc, if_pos]
  obtain ⟨k, hk⟩ : ∃ k, b.count = k + 1 := ⟨b.count - 1, by omega⟩
  rw [hk]
  simp only [List.range_succ_eq_map, List.map_cons, List.map_map, Nat.add_sub_cancel]
  congr 1
  · rw [Nat.add_zero, Nat.mod_eq_of_lt h5]
  · apply List.map_congr_left
    intro i _
    simp only [Function.comp]
    rw [Nat.mod_add_mod]
    have hx : b.tail + Nat.succ i = b.tail + 1 + i := by omega
    rw [hx]

end CircularBuffer

/-- C1: for every buffer with capacity > 0, `write value time` stores the
record with id `ID`, the given timestamp and value at slot `head`, advances
`head` by one modulo the capacity, increments `ID` modulo 2^32, and either
(buffer not full) increments `count`, leaves `tail` alone and returns
`false`, or (buffer full) leaves `count` alone, advances `tail` by one
modulo the capacity — evicting the oldest record — and returns `true`. -/
theorem claim1_write_effect (b : CircularBuffer) (v : Int) (t : Nat)
    (hcap : 0 < b.bufferSize) :
    (b.write v t).2.buffer = b.buffer.set b.head ⟨b.ID, t, v⟩ ∧
    (b.write v t).2.head = (b.head + 1) % b.bufferSize ∧
    (b.write v t).2.ID = (b.ID + 1) % 4294967296 ∧
    (b.write v t).2.bufferSize = b.bufferSize ∧
    (b.count < b.bufferSize →
      (b.write v t).2.count = b.count + 1 ∧
      (b.write v t).2.tail = b.tail ∧
      (b.write v t).1 = false) ∧
    (¬ b.count < b.bufferSize →
      (b.write v t).2.count = b.count ∧
      (b.write v t).2.tail = (b.tail + 1) % b.bufferSize ∧
      (b.write v t).1 = true) := by
  unfold CircularBuffer.write
  split <;> simp_all

/-- Witness for C1 at the concrete buffer `init 4` with value 7, time 5. -/
theorem claim1_write_effect_witness :
    0 < (CircularBuffer.init 4).bufferSize ∧
    (((CircularBuffer.init 4).write 7 5).2.buffer =
        (CircularBuffer.init 4).buffer.set (CircularBuffer.init 4).head
          ⟨(CircularBuffer.init 4).ID, 5, 7⟩ ∧
      ((CircularBuffer.init 4).write 7 5).2.head =
        ((CircularBuffer.init 4).head + 1) % (CircularBuffer.init 4).bufferSize ∧
      ((CircularBuffer.init 4).write 7 5).2.ID =
        ((CircularBuffer.init 4).ID + 1) % 4294967296 ∧
      ((CircularBuffer.init 4).write 7 5).2.bufferSize =
        (CircularBuffer.init 4).bufferSize ∧
      ((CircularBuffer.init 4).count < (CircularBuffer.init 4).bufferSize →
        ((CircularBuffer.init 4).write 7 5).2.count = (CircularBuffer.init 4).count + 1 ∧
        ((CircularBuffer.init 4).write 7 5).2.tail = (CircularBuffer.init 4).tail ∧
        ((CircularBuffer.init 4).write 7 5).1 = false) ∧
      (¬ (CircularBuffer.init 4).count < (CircularBuffer.init 4).bufferSize →
        ((CircularBuffer.init 4).write 7 5).2.count = (CircularBuffer.init 4).count ∧
        ((CircularBuffer.init 4).write 7 5).2.tail =
          ((CircularBuffer.init 4).tail + 1) % (CircularBuffer.init 4).bufferSize ∧
        ((CircularBuffer.init 4).write 7 5).1 = true)) :=
  ⟨by decide, claim1_write_effect (CircularBuffer.init 4) 7 5 (by decide)⟩

/-- C2: for every well-formed buffer holding at least one record,
`read` returns `true`, copies the record at slot `tail` into the output,
advances `tail` by one modulo the capacity and decrements `count`; the
returned record is exactly the one removed from the front of the live
records — no other stored entry is evicted or skipped. -/
theorem claim2_read_effect (b : CircularBuffer) (p : DataPacket)
    (h : b.WF) (hc : 0 < b.count) :
    (b.read p).1 = true ∧
    (b.read p).2.1 = b.buffer.getD b.tail default ∧
    (b.read p).2.2.tail = (b.tail + 1) % b.bufferSize ∧
    (b.read p).2.2.count = b.count - 1 ∧
    b.absList = (b.read p).2.1 :: ((b.read p).2.2).absList := by
  refine ⟨?_, ?_, ?_, ?_, CircularBuffer.absList_read_cons b p h hc⟩ <;>
    · unfold CircularBuffer.read
      simp [hc]

/-- Witness for C2 at the concrete one-record buffer `bufOne`. -/
theorem claim2_read_effect_witness :
    CircularBuffer.bufOne.WF ∧ 0 < CircularBuffer.bufOne.count ∧
    ((CircularBuffer.bufOne.read default).1 = true ∧
      (CircularBuffer.bufOne.read default).2.1 =
        CircularBuffer.bufOne.buffer.getD CircularBuffer.bufOne.tail default ∧
      (CircularBuffer.bufOne.read default).2.2.tail =
        (CircularBuffer.bufOne.tail + 1) % CircularBuffer.bufOne.bufferSize ∧
      (CircularBuffer.bufOne.read default).2.2.count =
        CircularBuffer.bufOne.count - 1 ∧
      CircularBuffer.bufOne.absList =
        (CircularBuffer.bufOne.read default).2.1 ::
          ((CircularBuffer.bufOne.read default).2.2).absList) :=
  ⟨by decide, by decide, claim2_read_effect CircularBuffer.bufOne default (by decide) (by decide)⟩

/-- C6: reading from a buffer with `count = 0` returns `false`, hands back
the caller's output record unmodified, and leaves the whole buffer state
(head, tail, count, ID and all stored records) unchanged. -/
theorem claim6_read_empty (b : CircularBuffer) (p : DataPacket)
    (h : b.count = 0) :
    b.read p = (false, p, b) := by
  unfold CircularBuffer.read
  simp [h]

/-- Witness for C6 at the freshly constructed buffer `init 3`. -/
theorem claim6_read_empty_witness :
    (CircularBuffer.init 3).count = 0 ∧
    (CircularBuffer.init 3).read ⟨9, 8, 7⟩ = (false, ⟨9, 8, 7⟩, CircularBuffer.init 3) :=
  ⟨rfl, claim6_read_empty (CircularBuffer.init 3) ⟨9, 8, 7⟩ rfl⟩

/-- C8: `available` returns the current `count`, leaves the state
untouched, and calling it any number of times without an intervening write
or read keeps returning the same value. -/
theorem claim8_available_pure (b : CircularBuffer) :
    b.available.1 = b.count ∧
    b.available.2 = b ∧
    ∀ n : Nat, ((fun s : CircularBuffer => s.available.2)^[n] b).available.1 = b.count := by
  refine ⟨rfl, rfl, ?_⟩
  intro n
  induction n with
  | zero => rfl
  | succ k ih => rw [Function.iterate_succ_apply]; exact ih

/-- C10: frame condition of a successful `read`: with at least one record
stored, `read` changes only `tail`, `count` and the caller's output record;
`head`, `ID`, the capacity and every slot of the backing array keep their
previous contents. -/
theorem claim10_read_frame (b : CircularBuffer) (p : DataPacket)
    (hcap : 0 < b.bufferSize) (hc : 0 < b.count) :
    (b.read p).2.2.head = b.head ∧
    (b.read p).2.2.ID = b.ID ∧
    (b.read p).2.2.buffer = b.buffer ∧
    (b.read p).2.2.bufferSize = b.bufferSize := by
  unfold CircularBuffer.read
  simp [hc]

/-- Witness for C10 at the concrete one-record buffer `bufOne`. -/
theorem claim10_read_frame_witness :
    0 < CircularBuffer.bufOne.bufferSize ∧ 0 < CircularBuffer.bufOne.count ∧
    ((CircularBuffer.bufOne.read default).2.2.head = CircularBuffer.bufOne.head ∧
      (CircularBuffer.bufOne.read default).2.2.ID = CircularBuffer.bufOne.ID ∧
      (CircularBuffer.bufOne.read default).2.2.buffer = CircularBuffer.bufOne.buffer ∧
      (CircularBuffer.bufOne.read default).2.2.bufferSize = CircularBuffer.bufOne.bufferSize) :=
  ⟨by decide, by decide, claim10_read_frame CircularBuffer.bufOne default (by decide) (by decide)⟩


namespace CircularBuffer

/-- Characterization of `write` on a non-full buffer. -/
theorem write_not_full (b : CircularBuffer) (v : Int) (t : Nat)
    (hc : b.count < b.bufferSize) :
    b.write v t = (false,
      { b with buffer := b.buffer.set b.head ⟨b.ID, t, v⟩,
               head := (b.head + 1) % b.bufferSize,
               ID := (b.ID + 1) % 4294967296,
               count := b.count + 1 }) := by
  unfold write
  simp [hc]

/-- Characterization of `write` on a full buffer. -/
theorem write_full (b : CircularBuffer) (v : Int) (t : Nat)
    (hc : ¬ b.count < b.bufferSize) :
    b.write v t = (true,
      { b with buffer := b.buffer.set b.head ⟨b.ID, t, v⟩,
               head := (b.head + 1) % b.bufferSize,
               ID := (b.ID + 1) % 4294967296,
               tail := (b.tail + 1) % b.bufferSize }) := by
  unfold write
  simp [hc]

/-- Characterization of `read` on a nonempty buffer. -/
theorem read_pos (b : CircularBuffer) (p : DataPacket) (hc : 0 < b.count) :
    b.read p = (true, b.buffer.getD b.tail default,
      { b with tail := (b.tail + 1) % b.bufferSize,
               count := b.count - 1 }) := by
  unfold read
  simp [hc]

/-- `write` preserves the buffer invariant. -/
theorem wf_write (b : CircularBuffer) (v : Int) (t : Nat) (h : b.WF) :
    ((b.write v t).2).WF := by
  obtain ⟨h1, h2, h3, h4, h5, h6, h7, h8⟩ := h
  by_cases hc : b.count < b.bufferSize
  · rw [write_not_full b v t hc]
    unfold WF
    dsimp only
    refine ⟨h1, h2, by simpa using h3, Nat.mod_lt _ h1, h5, by omega, ?_,
      Nat.mod_lt _ (by norm_num)⟩
    rw [h7, Nat.mod_add_mod, Nat.add_assoc]
  · rw [write_full b v t hc]
    unfold WF
    dsimp only
    refine ⟨h1, h2, by simpa using h3, Nat.mod_lt _ h1, Nat.mod_lt _ h1, h6, ?_,
      Nat.mod_lt _ (by norm_num)⟩
    rw [h7, Nat.mod_add_mod, Nat.mod_add_mod]
    congr 1
    omega

/-- `read` preserves the buffer invariant. -/
theorem wf_read (b : CircularBuffer) (p : DataPacket) (h : b.WF) :
    ((b.read p).2.2).WF := by
  obtain ⟨h1, h2, h3, h4, h5, h6, h7, h8⟩ := h
  by_cases hc : 0 < b.count
  · rw [read_pos b p hc]
    unfold WF
    dsimp only
    refine ⟨h1, h2, h3, h4, Nat.mod_lt _ h1, by omega, ?_, h8⟩
    rw [h7, Nat.mod_add_mod]
    congr 1
    omega
  · have hread : b.read p = (false, p, b) := by
      unfold read
      simp [hc]
    rw [hread]
    exact ⟨h1, h2, h3, h4, h5, h6, h7, h8⟩

/-- `step` preserves the buffer invariant. -/
theorem wf_step (b : CircularBuffer) (op : Op) (h : b.WF) : (b.step op).WF := by
  cases op with
  | write v t => exact wf_write b v t h
  | read => exact wf_read b default h

/-- `run` preserves the buffer invariant. -/
theorem wf_run (b : CircularBuffer) (ops : List Op) (h : b.WF) : (b.run ops).WF := by
  induction ops generalizing b with
  | nil => exact h
  | cons op rest ih => exact ih (b.step op) (wf_step b op h)

/-- No operation changes the capacity field. -/
theorem bufferSize_step (b : CircularBuffer) (op : Op) :
    (b.step op).bufferSize = b.bufferSize := by
  cases op with
  | write v t =>
    by_cases hc : b.count < b.bufferSize
    · rw [show b.step (Op.write v t) = (b.write v t).2 from rfl, write_not_full b v t hc]
    · rw [show b.step (Op.write v t) = (b.write v t).2 from rfl, write_full b v t hc]
  | read =>
    by_cases hc : 0 < b.count
    · rw [show b.step Op.read = (b.read default).2.2 from rfl, read_pos b default hc]
    · have hread : b.read default = (false, default, b) := by
        unfold read
        simp [hc]
      rw [show b.step Op.read = (b.read default).2.2 from rfl, hread]

/-- No operation sequence changes the capacity field. -/
theorem bufferSize_run (b : CircularBuffer) (ops : List Op) :
    (b.run ops).bufferSize = b.bufferSize := by
  induction ops generalizing b with
  | nil => rfl
  | cons op rest ih =>
    rw [show b.run (op :: rest) = (b.step op).run rest from rfl, ih (b.step op),
      bufferSize_step]

/-- A freshly constructed buffer with positive `uint16_t` capacity
satisfies the invariant. -/
theorem wf_init (size : Nat) (h1 : 0 < size) (h2 : size < 65536) :
    (init size).WF := by
  have hs : size % 65536 = size := Nat.mod_eq_of_lt h2
  unfold init WF
  dsimp only
  rw [hs]
  refine ⟨h1, h2, by simp, h1, h1, Nat.zero_le _, by simp, by norm_num⟩

end CircularBuffer

/-- C4: starting from a buffer constructed with any positive capacity,
after every sequence of write and read operations the state invariant
holds — `head` and `tail` lie in `[0, capacity)`, `count` is at most the
capacity, `head = (tail + count) % capacity` — the capacity is unchanged,
and `available()` never returns a value exceeding the capacity. -/
theorem claim4_invariant (size : Nat) (ops : List CircularBuffer.Op)
    (h1 : 0 < size) (h2 : size < 65536) :
    ((CircularBuffer.init size).run ops).WF ∧
    ((CircularBuffer.init size).run ops).bufferSize = size ∧
    ((CircularBuffer.init size).run ops).available.1 ≤ size := by
  have hwf := CircularBuffer.wf_run _ ops (CircularBuffer.wf_init size h1 h2)
  have hbs := CircularBuffer.bufferSize_run (CircularBuffer.init size) ops
  have hbs0 : (CircularBuffer.init size).bufferSize = size := Nat.mod_eq_of_lt h2
  have hcount := hwf.2.2.2.2.2.1
  refine ⟨hwf, by omega, ?_⟩
  show ((CircularBuffer.init size).run ops).count ≤ size
  omega

/-- Witness for C4: capacity 4 and a concrete sequence of writes and reads. -/
theorem claim4_invariant_witness :
    0 < 4 ∧ 4 < 65536 ∧
    (((CircularBuffer.init 4).run
        [CircularBuffer.Op.write 1 2, CircularBuffer.Op.write 3 4, CircularBuffer.Op.read,
         CircularBuffer.Op.write 5 6, CircularBuffer.Op.read, CircularBuffer.Op.read]).WF ∧
      ((CircularBuffer.init 4).run
        [CircularBuffer.Op.write 1 2, CircularBuffer.Op.write 3 4, CircularBuffer.Op.read,
         CircularBuffer.Op.write 5 6, CircularBuffer.Op.read, CircularBuffer.Op.read]).bufferSize = 4 ∧
      ((CircularBuffer.init 4).run
        [CircularBuffer.Op.write 1 2, CircularBuffer.Op.write 3 4, CircularBuffer.Op.read,
         CircularBuffer.Op.write 5 6, CircularBuffer.Op.read, CircularBuffer.Op.read]).available.1 ≤ 4) :=
  ⟨by decide, by decide,
    claim4_invariant 4
      [CircularBuffer.Op.write 1 2, CircularBuffer.Op.write 3 4, CircularBuffer.Op.read,
       CircularBuffer.Op.write 5 6, CircularBuffer.Op.read, CircularBuffer.Op.read]
      (by decide) (by decide)⟩

namespace CircularBuffer

/-- Walking `i` slots and `j` slots forward from the same start modulo the
ring size reaches the same slot only if `i = j`, for `i, j` below the ring
size. -/
theorem mod_shift_inj (S t i j : Nat) (hi : i < S) (hj : j < S)
    (h : (t + i) % S = (t + j) % S) : i = j := by
  have h2 : i % S = j % S := Nat.ModEq.add_left_cancel' t h
  rwa [Nat.mod_eq_of_lt hi, Nat.mod_eq_of_lt hj] at h2

/-- Writing into a non-full well-formed buffer appends the new record to
the back of the live-record list. -/
theorem absList_write (b : CircularBuffer) (v : Int) (t : Nat)
    (h : b.WF) (hc : b.count < b.bufferSize) :
    ((b.write v t).2).absList = b.absList ++ [⟨b.ID, t, v⟩] := by
  obtain ⟨h1, h2, h3, h4, h5, h6, h7, h8⟩ := h
  rw [write_not_full b v t hc]
  unfold absList
  dsimp only
  rw [List.range_succ, List.map_append, List.map_singleton]
  congr 1
  · apply List.map_congr_left
    intro i hi
    have hilt : i < b.count := List.mem_range.mp hi
    have hne : b.head ≠ (b.tail + i) % b.bufferSize := by
      intro hcon
      rw [h7] at hcon
      have := mod_shift_inj b.bufferSize b.tail b.count i hc (by omega) hcon
      omega
    simp [List.getD_eq_getElem?_getD, List.getElem?_set_ne hne]
  · have hhd : (b.tail + b.count) % b.bufferSize = b.head := h7.symm
    rw [hhd]
    have hlen : b.head < (b.buffer.set b.head ⟨b.ID, t, v⟩).length := by
      rw [List.length_set]
      omega
    simp [List.getD_eq_getElem?_getD, List.getElem?_set_self (by omega : b.head < b.buffer.length)]

/-- Appending one write to a write sequence appends one expected record. -/
theorem expectedRecords_append (ws : List (Int × Nat)) (v : Int) (t : Nat) (n : Nat) :
    expectedRecords (ws ++ [(v, t)]) n =
      expectedRecords ws n ++ [⟨n + ws.length, t, v⟩] := by
  induction ws generalizing n with
  | nil => simp [expectedRecords]
  | cons w rest ih =>
    obtain ⟨wv, wt⟩ := w
    simp only [List.cons_append, expectedRecords, List.length_cons, List.append_eq]
    rw [ih (n + 1)]
    have hn : n + 1 + rest.length = n + (rest.length + 1) := by omega
    rw [hn]

/-- Every record the spec expects from an id `n` onwards has id at least
`n`. -/
theorem expectedRecords_mem_id (ws : List (Int × Nat)) (n : Nat) (q : DataPacket)
    (hq : q ∈ expectedRecords ws n) : n ≤ q.id := by
  induction ws generalizing n with
  | nil => simp [expectedRecords] at hq
  | cons w rest ih =>
    obtain ⟨wv, wt⟩ := w
    simp only [expectedRecords, List.mem_cons] at hq
    rcases hq with rfl | hq
    · exact Nat.le_refl n
    · have := ih (n + 1) hq
      omega

/-- The expected records carry strictly increasing ids. -/
theorem expectedRecords_pairwise (ws : List (Int × Nat)) (n : Nat) :
    List.Pairwise (fun p q => p.id < q.id) (expectedRecords ws n) := by
  induction ws generalizing n with
  | nil => exact List.Pairwise.nil
  | cons w rest ih =>
    obtain ⟨wv, wt⟩ := w
    refine List.Pairwise.cons ?_ (ih (n + 1))
    intro q hq
    have := expectedRecords_mem_id rest (n + 1) q hq
    show n < q.id
    omega

/-- After at most `capacity` writes into a fresh buffer, the state is
well formed, the capacity is unchanged, `count` and `ID` both equal the
number of writes, and the live records are exactly the expected ones. -/
theorem writeAll_spec (size : Nat) (ws : List (Int × Nat))
    (h1 : 0 < size) (h2 : size < 65536) (hlen : ws.length ≤ size) :
    (writeAll (init size) ws).WF ∧
    (writeAll (init size) ws).bufferSize = size ∧
    (writeAll (init size) ws).count = ws.length ∧
    (writeAll (init size) ws).ID = ws.length ∧
    (writeAll (init size) ws).absList = expectedRecords ws 0 := by
  induction ws using List.reverseRecOn with
  | nil =>
    refine ⟨wf_init size h1 h2, Nat.mod_eq_of_lt h2, rfl, rfl, rfl⟩
  | append_singleton l w ih =>
    obtain ⟨v, t⟩ := w
    rw [List.length_append, List.length_singleton] at hlen
    obtain ⟨hwf, hbs, hcount, hid, habs⟩ := ih (by omega)
    have hstep : writeAll (init size) (l ++ [(v, t)]) =
        ((writeAll (init size) l).write v t).2 := by
      unfold writeAll
      rw [List.foldl_append]
      rfl
    have hc : (writeAll (init size) l).count < (writeAll (init size) l).bufferSize := by
      omega
    refine ⟨?_, ?_, ?_, ?_, ?_⟩
    · rw [hstep]
      exact wf_write _ v t hwf
    · rw [hstep, write_not_full _ v t hc]
      simpa using hbs
    · rw [hstep, write_not_full _ v t hc]
      dsimp only
      rw [hcount, List.length_append, List.length_singleton]
    · rw [hstep, write_not_full _ v t hc]
      dsimp only
      rw [hid, List.length_append, List.length_singleton]
      exact Nat.mod_eq_of_lt (by omega)
    · rw [hstep, absList_write _ v t hwf hc, habs, hid, expectedRecords_append]
      simp
end CircularBuffer

namespace CircularBuffer

/-- Draining a well-formed buffer with fuel equal to its `count` returns
exactly the live records, in FIFO order. -/
theorem drain_eq_absList (n : Nat) (b : CircularBuffer) (h : b.WF)
    (hn : b.count = n) :
    drain n b = b.absList := by
  induction n generalizing b with
  | zero =>
    unfold drain absList
    rw [hn]
    rfl
  | succ k ih =>
    have hc : 0 < b.count := by omega
    have hr1 : (b.read default).1 = true := by
      rw [read_pos b default hc]
    have hcount : (b.read default).2.2.count = k := by
      rw [read_pos b default hc]
      dsimp only
      omega
    rw [absList_read_cons b default h hc]
    unfold drain
    dsimp only
    rw [hr1]
    simp only [if_true]
    congr 1
    exact ih (b.read default).2.2 (wf_read b default h) hcount

end CircularBuffer

/-- C3: writing at most `capacity` (value, timestamp) pairs into a fresh
buffer with positive capacity leaves `available()` equal to the number of
writes, and draining the buffer by repeated `read` returns the written
records in FIFO order, each with the exact value and timestamp passed to
its write and with strictly increasing id fields (ids 0, 1, 2, ...). -/
theorem claim3_fifo (size : Nat) (ws : List (Int × Nat))
    (h1 : 0 < size) (h2 : size < 65536) (hlen : ws.length ≤ size) :
    ((CircularBuffer.init size).writeAll ws).available.1 = ws.length ∧
    CircularBuffer.drain ((CircularBuffer.init size).writeAll ws).count
        ((CircularBuffer.init size).writeAll ws) =
      CircularBuffer.expectedRecords ws 0 ∧
    List.Pairwise (fun p q => p.id < q.id)
      (CircularBuffer.drain ((CircularBuffer.init size).writeAll ws).count
        ((CircularBuffer.init size).writeAll ws)) := by
  obtain ⟨hwf, hbs, hcount, hid, habs⟩ := CircularBuffer.writeAll_spec size ws h1 h2 hlen
  have hdrain := CircularBuffer.drain_eq_absList _ _ hwf rfl
  refine ⟨?_, ?_, ?_⟩
  · show ((CircularBuffer.init size).writeAll ws).count = ws.length
    exact hcount
  · rw [hdrain, habs]
  · rw [hdrain, habs]
    exact CircularBuffer.expectedRecords_pairwise ws 0

/-- Witness for C3: capacity 3 and two concrete writes. -/
theorem claim3_fifo_witness :
    0 < 3 ∧ 3 < 65536 ∧
    ([((1 : Int), (10 : Nat)), (2, 20)] : List (Int × Nat)).length ≤ 3 ∧
    (((CircularBuffer.init 3).writeAll
        ([((1 : Int), (10 : Nat)), (2, 20)] : List (Int × Nat))).available.1 =
      ([((1 : Int), (10 : Nat)), (2, 20)] : List (Int × Nat)).length ∧
      CircularBuffer.drain
          ((CircularBuffer.init 3).writeAll
            ([((1 : Int), (10 : Nat)), (2, 20)] : List (Int × Nat))).count
          ((CircularBuffer.init 3).writeAll
            ([((1 : Int), (10 : Nat)), (2, 20)] : List (Int × Nat))) =
        CircularBuffer.expectedRecords
          ([((1 : Int), (10 : Nat)), (2, 20)] : List (Int × Nat)) 0 ∧
      List.Pairwise (fun p q => p.id < q.id)
        (CircularBuffer.drain
          ((CircularBuffer.init 3).writeAll
            ([((1 : Int), (10 : Nat)), (2, 20)] : List (Int × Nat))).count
          ((CircularBuffer.init 3).writeAll
            ([((1 : Int), (10 : Nat)), (2, 20)] : List (Int × Nat))))) :=
  ⟨by decide, by decide, by decide,
    claim3_fifo 3 ([((1 : Int), (10 : Nat)), (2, 20)] : List (Int × Nat))
      (by decide) (by decide) (by decide)⟩

/-- C7: on a buffer of capacity 4, writing six values in order returns
overflow `false` on the first four writes and `true` on the fifth and
sixth, and draining then yields exactly the records of the third through
sixth writes (ids 2, 3, 4, 5) in that order. -/
theorem claim7_wraparound (v0 v1 v2 v3 v4 v5 : Int) (t0 t1 t2 t3 t4 t5 : Nat) :
    ((CircularBuffer.init 4).write v0 t0).1 = false ∧
    (((CircularBuffer.init 4).write v0 t0).2.write v1 t1).1 = false ∧
    ((((CircularBuffer.init 4).write v0 t0).2.write v1 t1).2.write v2 t2).1 = false ∧
    (((((CircularBuffer.init 4).write v0 t0).2.write v1 t1).2.write v2 t2).2.write
      v3 t3).1 = false ∧
    ((((((CircularBuffer.init 4).write v0 t0).2.write v1 t1).2.write v2 t2).2.write
      v3 t3).2.write v4 t4).1 = true ∧
    (((((((CircularBuffer.init 4).write v0 t0).2.write v1 t1).2.write v2 t2).2.write
      v3 t3).2.write v4 t4).2.write v5 t5).1 = true ∧
    CircularBuffer.drain
        (((((((CircularBuffer.init 4).write v0 t0).2.write v1 t1).2.write v2 t2).2.write
          v3 t3).2.write v4 t4).2.write v5 t5).2.count
        (((((((CircularBuffer.init 4).write v0 t0).2.write v1 t1).2.write v2 t2).2.write
          v3 t3).2.write v4 t4).2.write v5 t5).2 =
      [⟨2, t2, v2⟩, ⟨3, t3, v3⟩, ⟨4, t4, v4⟩, ⟨5, t5, v5⟩] := by
  refine ⟨rfl, rfl, rfl, rfl, rfl, rfl, ?_⟩
  simp [CircularBuffer.init, CircularBuffer.write, CircularBuffer.read, CircularBuffer.drain]

namespace CircularBuffer

/-- Every write increments `ID` by one modulo 2^32, in both the non-full
and the full branch. -/
theorem ID_write (b : CircularBuffer) (v : Int) (t : Nat) :
    (b.write v t).2.ID = (b.ID + 1) % 4294967296 := by
  by_cases hc : b.count < b.bufferSize
  · rw [write_not_full b v t hc]
  · rw [write_full b v t hc]

/-- Every write stores the record `{ID, time, value}` at slot `head`, in
both the non-full and the full branch. -/
theorem write_buffer (b : CircularBuffer) (v : Int) (t : Nat) :
    (b.write v t).2.buffer = b.buffer.set b.head ⟨b.ID, t, v⟩ := by
  by_cases hc : b.count < b.bufferSize
  · rw [write_not_full b v t hc]
  · rw [write_full b v t hc]

/-- Any number of writes into any well-formed buffer keeps it well
formed (no bound on the number of writes). -/
theorem wf_writeAll (b : CircularBuffer) (ws : List (Int × Nat)) (h : b.WF) :
    (b.writeAll ws).WF := by
  induction ws generalizing b with
  | nil => exact h
  | cons w rest ih => exact ih (b.write w.1 w.2).2 (wf_write b w.1 w.2 h)

/-- After `n` writes since construction the `ID` counter holds
`n % 2^32`, whatever the capacity. -/
theorem ID_writeAll (size : Nat) (ws : List (Int × Nat)) :
    ((init size).writeAll ws).ID = ws.length % 4294967296 := by
  induction ws using List.reverseRecOn with
  | nil => rfl
  | append_singleton l w ih =>
    have hstep : (init size).writeAll (l ++ [w]) =
        (((init size).writeAll l).write w.1 w.2).2 := by
      unfold writeAll
      rw [List.foldl_append]
      rfl
    rw [hstep, ID_write, ih, Nat.mod_add_mod, List.length_append, List.length_singleton]

/-- A one-slot empty buffer whose `ID` counter sits at the largest
`uint32_t` value, about to wrap. -/
def bufMaxId : CircularBuffer :=
  { buffer := [⟨0, 0, 0⟩], bufferSize := 1, head := 0, tail := 0, count := 0,
    ID := 4294967295 }

end CircularBuffer

/-- C9: the record id counter is unsigned 32-bit arithmetic wrapping
modulo 2^32: every write increments `ID` by one modulo 2^32; a write whose
increment wraps from 2^32 - 1 to 0 still stores its record normally and is
not treated as an error; and for any number `n` of writes since
construction, the counter afterwards holds `n % 2^32` and the `n`-th write
stored a record whose id is `(n - 1) % 2^32`. -/
theorem claim9_id_wrap (b : CircularBuffer) (v : Int) (t : Nat)
    (size : Nat) (ws : List (Int × Nat))
    (h1 : 0 < size) (h2 : size < 65536) :
    (b.write v t).2.ID = (b.ID + 1) % 4294967296 ∧
    (b.ID = 4294967295 →
      (b.write v t).2.ID = 0 ∧
      (b.write v t).2.buffer = b.buffer.set b.head ⟨b.ID, t, v⟩) ∧
    ((CircularBuffer.init size).writeAll ws).ID = ws.length % 4294967296 ∧
    (((CircularBuffer.init size).writeAll ws).write v t).2.buffer.getD
        ((CircularBuffer.init size).writeAll ws).head default =
      ⟨ws.length % 4294967296, t, v⟩ := by
  refine ⟨CircularBuffer.ID_write b v t, ?_, CircularBuffer.ID_writeAll size ws, ?_⟩
  · intro hid
    exact ⟨by rw [CircularBuffer.ID_write, hid], CircularBuffer.write_buffer b v t⟩
  · obtain ⟨g1, g2, g3, g4, g5, g6, g7, g8⟩ :=
      CircularBuffer.wf_writeAll (CircularBuffer.init size) ws
        (CircularBuffer.wf_init size h1 h2)
    have hlen : ((CircularBuffer.init size).writeAll ws).head <
        ((CircularBuffer.init size).writeAll ws).buffer.length := by
      omega
    rw [CircularBuffer.write_buffer]
    simp [List.getD_eq_getElem?_getD, List.getElem?_set_self hlen,
      CircularBuffer.ID_writeAll size ws]

/-- Witness for C9: the buffer `bufMaxId` whose id counter is 2^32 - 1,
together with capacity 2 and three concrete writes (one more than the
capacity, so the ring wraps). -/
theorem claim9_id_wrap_witness :
    0 < 2 ∧ 2 < 65536 ∧
    ((CircularBuffer.bufMaxId.write 7 9).2.ID =
        (CircularBuffer.bufMaxId.ID + 1) % 4294967296 ∧
      (CircularBuffer.bufMaxId.ID = 4294967295 →
        (CircularBuffer.bufMaxId.write 7 9).2.ID = 0 ∧
        (CircularBuffer.bufMaxId.write 7 9).2.buffer =
          CircularBuffer.bufMaxId.buffer.set CircularBuffer.bufMaxId.head
            ⟨CircularBuffer.bufMaxId.ID, 9, 7⟩) ∧
      ((CircularBuffer.init 2).writeAll
          ([((1 : Int), (1 : Nat)), (2, 2), (3, 3)] : List (Int × Nat))).ID =
        ([((1 : Int), (1 : Nat)), (2, 2), (3, 3)] : List (Int × Nat)).length % 4294967296 ∧
      (((CircularBuffer.init 2).writeAll
            ([((1 : Int), (1 : Nat)), (2, 2), (3, 3)] : List (Int × Nat))).write 7 9).2.buffer.getD
          ((CircularBuffer.init 2).writeAll
            ([((1 : Int), (1 : Nat)), (2, 2), (3, 3)] : List (Int × Nat))).head default =
        ⟨([((1 : Int), (1 : Nat)), (2, 2), (3, 3)] : List (Int × Nat)).length % 4294967296, 9, 7⟩) :=
  ⟨by decide, by decide,
    claim9_id_wrap CircularBuffer.bufMaxId 7 9 2
      ([((1 : Int), (1 : Nat)), (2, 2), (3, 3)] : List (Int × Nat)) (by decide) (by decide)⟩

namespace CircularBuffer

/-- The constructor as claim C5 describes it, written from the spec's
words as a second definition for comparison with `init`: it rejects a zero
capacity instead of producing a buffer, and otherwise builds the same
state `init` builds. -/
def initRejectingSpec (size : Nat) : Option CircularBuffer :=
  if size = 0 then none else some (init size)

end CircularBuffer

/-- C5 counterexample: the source constructor performs no capacity check.
At the concrete input 0 it produces a buffer — with `bufferSize = 0` and an
empty backing array — rather than rejecting construction, while the
rejecting constructor the claim describes returns nothing there. -/
theorem claim5_counterexample :
    CircularBuffer.init 0 =
      { buffer := [], bufferSize := 0, head := 0, tail := 0, count := 0, ID := 0 } ∧
    CircularBuffer.initRejectingSpec 0 = none :=
  ⟨rfl, rfl⟩

/-- C5 amended: the constructor validates nothing: for every requested
size it stores the `uint16_t`-truncated size unclamped, allocates exactly
that many slots, and zeroes `head`, `tail`, `count` and `ID`; in
particular capacity 0 is accepted and yields a buffer with `bufferSize =
0`, leaving the prohibition of zero capacity to the caller's contract. -/
theorem claim5_amended (size : Nat) :
    (CircularBuffer.init size).bufferSize = size % 65536 ∧
    (CircularBuffer.init size).buffer.length = size % 65536 ∧
    (CircularBuffer.init size).head = 0 ∧
    (CircularBuffer.init size).tail = 0 ∧
    (CircularBuffer.init size).count = 0 ∧
    (CircularBuffer.init size).ID = 0 := by
  refine ⟨rfl, ?_, rfl, rfl, rfl, rfl⟩
  simp [CircularBuffer.init]
